import Mathlib

/-!
Verification of the Algorithm Choice notebook (examples/Algorithm_Choice.ipynb).

The notebook computes the sequence 1/3^n by two linear recurrences, prec
(coefficients 5/6, 1/6) and qrec (coefficients 5/3, 4/9), builds the
closed-form reference expected = 1/3.**arange(N+1), and evaluates the
fractional error perr = np.abs(1 - p/expected).

The embedding treats floating-point values as exact rationals, so every
arithmetic step matches the source expression exactly (the rounding of each
operation is not modelled).  Python and numpy failure modes are modelled
explicitly:
  - np.zeros(m) for m < 0 raises ValueError;
  - writing p[k] with k out of bounds of a length-m array raises IndexError;
  - numpy broadcasting of two 1-d arrays of different lengths succeeds when
    either length is 1 and raises a ValueError otherwise;
  - division by zero does not raise: it produces inf, -inf or nan.
-/

namespace AlgorithmChoice

/-- Error outcomes.  The kinds valueError and indexError are the Python
exceptions that the notebook code can actually raise; the kinds
invalidArgument, lengthMismatch and divisionByReferenceZero are the error
vocabulary of the specification, included so that statements about the
specified error model can be expressed. -/
inductive PyErr where
  | valueError
  | indexError
  | invalidArgument
  | lengthMismatch
  | divisionByReferenceZero
  deriving DecidableEq, Repr

/-- The two-term recurrence filled into the array by the loop
`for j in range(2, n+1): s[j] = c1*s[j-1] - c2*s[j-2]`, started from
s[0] = 1 and s[1] = 1/3 as the code assigns before the loop. -/
def recSeq (c1 c2 : ℚ) : Nat → ℚ
  | 0 => 1
  | 1 => 1 / 3
  | j + 2 => c1 * recSeq c1 c2 (j + 1) - c2 * recSeq c1 c2 j

/-- Embedding of `prec(n)`:
```
p = np.zeros(n+1); p[0] = 1; p[1] = 1./3
for j in range(2,n+1): p[j] = 5./6*p[j-1] - 1./6*p[j-2]
return p
```
np.zeros(n+1) raises ValueError when n+1 < 0; the unconditional writes
p[0] and p[1] raise IndexError when the array is shorter than 1 or 2. -/
def prec (n : Int) : Except PyErr (List ℚ) :=
  if n + 1 < 0 then .error .valueError
  else if n + 1 < 1 then .error .indexError
  else if n + 1 < 2 then .error .indexError
  else .ok (List.ofFn fun i : Fin (n + 1).toNat => recSeq (5/6) (1/6) i)

/-- Embedding of `qrec(n)`: identical to prec except the loop body is
`q[j] = 5./3*q[j-1] - 4./9*q[j-2]`. -/
def qrec (n : Int) : Except PyErr (List ℚ) :=
  if n + 1 < 0 then .error .valueError
  else if n + 1 < 1 then .error .indexError
  else if n + 1 < 2 then .error .indexError
  else .ok (List.ofFn fun i : Fin (n + 1).toNat => recSeq (5/3) (4/9) i)

/-- Embedding of `expected = 1/3.**np.arange(N+1)`: elementwise 1/3^k for
k = 0 .. N.  np.arange(N+1) is empty when N+1 <= 0, so no error is raised
for negative N; the base 3. is a float, so the arithmetic is
division of the number one by the k-th power, never integer division. -/
def referenceSequence (n : Int) : List ℚ :=
  List.ofFn fun k : Fin (n + 1).toNat => 1 / (3:ℚ) ^ (k : Nat)

/-- An IEEE-style value as numpy produces it from finite inputs: a finite
value (kept exact as a rational), the two infinities, or nan. -/
inductive FVal where
  | fin (q : ℚ)
  | inf
  | ninf
  | nan
  deriving DecidableEq, Repr

/-- numpy elementwise division of finite values: division by zero does not
raise, it yields inf, -inf or nan (with only a runtime warning). -/
def fdiv (a b : ℚ) : FVal :=
  if b = 0 then
    if a = 0 then .nan else if 0 < a then .inf else .ninf
  else .fin (a / b)

/-- The scalar-minus-array step `1 - r` applied elementwise. -/
def oneSub : FVal → FVal
  | .fin q => .fin (1 - q)
  | .inf => .ninf
  | .ninf => .inf
  | .nan => .nan

/-- `np.abs` applied elementwise. -/
def fabs : FVal → FVal
  | .fin q => .fin |q|
  | .inf => .inf
  | .ninf => .inf
  | .nan => .nan

/-- Embedding of `perr = np.abs(1 - p/expected)` on 1-d arrays, with numpy
broadcasting: equal lengths divide elementwise; a length-1 operand is
broadcast across the other; any other length mismatch raises ValueError.
A zero reference element raises nothing (see fdiv). -/
def perr (p e : List ℚ) : Except PyErr (List FVal) :=
  if h : p.length = e.length then
    .ok (List.ofFn fun i : Fin p.length =>
      fabs (oneSub (fdiv (p.get i) (e.get ⟨i.1, h ▸ i.2⟩))))
  else if p.length = 1 then
    .ok (e.map fun x => fabs (oneSub (fdiv (p.getD 0 0) x)))
  else if e.length = 1 then
    .ok (p.map fun x => fabs (oneSub (fdiv x (e.getD 0 0))))
  else .error .valueError

/-! ## Helper lemmas -/

/-- Index lemma: reading an ofFn list inside its bounds gives the generating
function applied to the index. -/
theorem ofFn_getD {α : Type} {m : Nat} (f : Fin m → α) (j : Nat) (hj : j < m) (d : α) :
    (List.ofFn f).getD j d = f ⟨j, hj⟩ := by
  rw [List.getD_eq_getElem _ _ (by simpa using hj), List.getElem_ofFn]

/-- In-bounds getD agrees with get. -/
theorem getD_eq_get {α : Type} (l : List α) (j : Nat) (hj : j < l.length) (d : α) :
    l.getD j d = l.get ⟨j, hj⟩ := by
  rw [List.getD_eq_getElem _ _ hj]
  simp

/-- Any two-term recurrence started at 1, 1/3 whose coefficients satisfy
c1/3 - c2 = 1/9 reproduces the geometric sequence (1/3)^j exactly. -/
theorem recSeq_eq_pow (c1 c2 : ℚ) (hc : c1 * (1/3) - c2 = 1/9) :
    ∀ j, recSeq c1 c2 j = (1/3) ^ j := by
  have key : ∀ j, recSeq c1 c2 j = (1/3) ^ j ∧ recSeq c1 c2 (j+1) = (1/3) ^ (j+1) := by
    intro j
    induction j with
    | zero => exact ⟨by simp [recSeq], by norm_num [recSeq]⟩
    | succ k ih =>
      refine ⟨ih.2, ?_⟩
      show recSeq c1 c2 (k + 2) = _
      rw [recSeq, ih.1, ih.2]
      have h9 : (1/3:ℚ) ^ (k + 2) = (1/3) ^ k * (1/9) := by ring
      rw [h9, ← hc]; ring
  exact fun j => (key j).1

/-- Unfolding of the recurrence at an index of at least two. -/
theorem recSeq_step (c1 c2 : ℚ) (j : Nat) (hj : 2 ≤ j) :
    recSeq c1 c2 j = c1 * recSeq c1 c2 (j - 1) - c2 * recSeq c1 c2 (j - 2) := by
  obtain ⟨k, rfl⟩ : ∃ k, j = k + 2 := ⟨j - 2, by omega⟩
  simp [recSeq]

/-- For n at least 1 none of the error branches of prec fires. -/
theorem prec_ok (n : Int) (h : 1 ≤ n) :
    prec n = .ok (List.ofFn fun i : Fin (n + 1).toNat => recSeq (5/6) (1/6) i) := by
  unfold prec
  rw [if_neg (by omega), if_neg (by omega), if_neg (by omega)]

/-- For n at least 1 none of the error branches of qrec fires. -/
theorem qrec_ok (n : Int) (h : 1 ≤ n) :
    qrec n = .ok (List.ofFn fun i : Fin (n + 1).toNat => recSeq (5/3) (4/9) i) := by
  unfold qrec
  rw [if_neg (by omega), if_neg (by omega), if_neg (by omega)]

/-- Under exact arithmetic, prec returns exactly the closed-form reference. -/
theorem prec_eq_ref (n : Int) (h : 1 ≤ n) : prec n = .ok (referenceSequence n) := by
  rw [prec_ok n h]
  unfold referenceSequence
  have hf : (fun i : Fin (n + 1).toNat => recSeq (5/6) (1/6) i)
      = fun i : Fin (n + 1).toNat => 1 / (3:ℚ) ^ (i : Nat) := by
    funext i
    rw [recSeq_eq_pow _ _ (by norm_num), div_pow, one_pow]
  rw [hf]

/-- Under exact arithmetic, qrec returns exactly the closed-form reference. -/
theorem qrec_eq_ref (n : Int) (h : 1 ≤ n) : qrec n = .ok (referenceSequence n) := by
  rw [qrec_ok n h]
  unfold referenceSequence
  have hf : (fun i : Fin (n + 1).toNat => recSeq (5/3) (4/9) i)
      = fun i : Fin (n + 1).toNat => 1 / (3:ℚ) ^ (i : Nat) := by
    funext i
    rw [recSeq_eq_pow _ _ (by norm_num), div_pow, one_pow]
  rw [hf]

/-- The two embedded recurrence functions agree on every integer input,
errors included. -/
theorem prec_eq_qrec (n : Int) : prec n = qrec n := by
  by_cases h0 : n + 1 < 0
  · simp [prec, qrec, h0]
  · by_cases h1 : n + 1 < 1
    · simp [prec, qrec, h0, h1]
    · by_cases h2 : n + 1 < 2
      · simp [prec, qrec, h0, h1, h2]
      · have hn : 1 ≤ n := by omega
        rw [prec_eq_ref n hn, qrec_eq_ref n hn]

/-- The length, head values and recurrence step of the array built by the
loop with coefficients c1, c2. -/
theorem recList_spec (c1 c2 : ℚ) (n : Int) (hn : 1 ≤ n) :
    (((List.ofFn fun i : Fin (n+1).toNat => recSeq c1 c2 i).length : Int) = n + 1) ∧
    (List.ofFn fun i : Fin (n+1).toNat => recSeq c1 c2 i).getD 0 0 = 1 ∧
    (List.ofFn fun i : Fin (n+1).toNat => recSeq c1 c2 i).getD 1 0 = 1/3 ∧
    ∀ j : Nat, 2 ≤ j → (j : Int) ≤ n →
      (List.ofFn fun i : Fin (n+1).toNat => recSeq c1 c2 i).getD j 0
        = c1 * (List.ofFn fun i : Fin (n+1).toNat => recSeq c1 c2 i).getD (j-1) 0
          - c2 * (List.ofFn fun i : Fin (n+1).toNat => recSeq c1 c2 i).getD (j-2) 0 := by
  refine ⟨by simp only [List.length_ofFn]; omega, ?_, ?_, ?_⟩
  · rw [ofFn_getD _ 0 (by omega)]; simp [recSeq]
  · rw [ofFn_getD _ 1 (by omega)]; norm_num [recSeq]
  · intro j h2 hjn
    rw [ofFn_getD _ j (by omega), ofFn_getD _ (j-1) (by omega), ofFn_getD _ (j-2) (by omega)]
    exact recSeq_step c1 c2 j h2

/-- The elementwise error of a nonzero value against itself is exactly 0. -/
theorem err_elem_self (x : ℚ) (hx : x ≠ 0) : fabs (oneSub (fdiv x x)) = FVal.fin 0 := by
  simp [fdiv, hx, oneSub, fabs, div_self hx]

/-- Comparing a zero-free sequence against itself yields the all-zero error
series. -/
theorem perr_self (e : List ℚ) (hz : ∀ x ∈ e, x ≠ 0) :
    perr e e = .ok (List.ofFn fun _ : Fin e.length => FVal.fin 0) := by
  rw [perr, dif_pos rfl]
  congr 1
  apply List.ext_getElem (by simp)
  intro i h1 h2
  simp only [List.getElem_ofFn]
  exact err_elem_self _ (hz _ (e.get_mem _ _))

/-- No element of the reference sequence is zero. -/
theorem referenceSequence_ne_zero (n : Int) : ∀ x ∈ referenceSequence n, x ≠ 0 := by
  intro x hx
  unfold referenceSequence at hx
  rw [List.mem_ofFn] at hx
  obtain ⟨k, rfl⟩ := hx
  positivity

/-! ## Claim theorems -/

/-- C1: for every integer n >= 1, prec n succeeds with a sequence of length
n+1 starting 1, 1/3 and obeying s[j] = (5/6) s[j-1] - (1/6) s[j-2] for
2 <= j <= n, and qrec n succeeds with a sequence of the same length and same
first two elements obeying s[j] = (5/3) s[j-1] - (4/9) s[j-2]. -/
theorem recurrence_construction (n : Int) (hn : 1 ≤ n) :
    ∃ s t : List ℚ,
      prec n = .ok s ∧ qrec n = .ok t ∧
      (s.length : Int) = n + 1 ∧ (t.length : Int) = n + 1 ∧
      s.getD 0 0 = 1 ∧ s.getD 1 0 = 1/3 ∧
      t.getD 0 0 = 1 ∧ t.getD 1 0 = 1/3 ∧
      (∀ j : Nat, 2 ≤ j → (j : Int) ≤ n →
        s.getD j 0 = 5/6 * s.getD (j-1) 0 - 1/6 * s.getD (j-2) 0) ∧
      (∀ j : Nat, 2 ≤ j → (j : Int) ≤ n →
        t.getD j 0 = 5/3 * t.getD (j-1) 0 - 4/9 * t.getD (j-2) 0) := by
  obtain ⟨hp1, hp2, hp3, hp4⟩ := recList_spec (5/6) (1/6) n hn
  obtain ⟨hq1, hq2, hq3, hq4⟩ := recList_spec (5/3) (4/9) n hn
  exact ⟨_, _, prec_ok n hn, qrec_ok n hn, hp1, hq1, hp2, hp3, hq2, hq3, hp4, hq4⟩

/-- Witness for C1 at n = 4. -/
theorem recurrence_construction_witness :
    ∃ s t : List ℚ,
      prec 4 = .ok s ∧ qrec 4 = .ok t ∧
      (s.length : Int) = 4 + 1 ∧ (t.length : Int) = 4 + 1 ∧
      s.getD 0 0 = 1 ∧ s.getD 1 0 = 1/3 ∧
      t.getD 0 0 = 1 ∧ t.getD 1 0 = 1/3 ∧
      (∀ j : Nat, 2 ≤ j → (j : Int) ≤ 4 →
        s.getD j 0 = 5/6 * s.getD (j-1) 0 - 1/6 * s.getD (j-2) 0) ∧
      (∀ j : Nat, 2 ≤ j → (j : Int) ≤ 4 →
        t.getD j 0 = 5/3 * t.getD (j-1) 0 - 4/9 * t.getD (j-2) 0) :=
  recurrence_construction 4 (by norm_num)

/-- C2: on sequences of equal length with a zero-free reference, perr
succeeds with a sequence of the same length whose element at each index i is
the finite value abs(1 - computed[i]/reference[i]), hence non-negative. -/
theorem error_evaluator_elementwise (p e : List ℚ) (hlen : p.length = e.length)
    (hz : ∀ x ∈ e, x ≠ 0) :
    ∃ r, perr p e = .ok r ∧ r.length = p.length ∧
      (∀ j : Nat, j < p.length →
        r.getD j .nan = .fin |1 - p.getD j 0 / e.getD j 0|) ∧
      (∀ v ∈ r, ∃ q, v = .fin q ∧ 0 ≤ q) := by
  refine ⟨List.ofFn fun i : Fin p.length =>
      fabs (oneSub (fdiv (p.get i) (e.get ⟨i.1, hlen ▸ i.2⟩))), ?_, by simp, ?_, ?_⟩
  · rw [perr, dif_pos hlen]
  · intro j hj
    rw [ofFn_getD _ j (by simpa using hj)]
    have he : e.get ⟨j, hlen ▸ hj⟩ ≠ 0 := hz _ (e.get_mem _ _)
    rw [getD_eq_get p j hj, getD_eq_get e j (hlen ▸ hj)]
    simp only [fdiv, if_neg he, oneSub, fabs]
  · intro v hv
    rw [List.mem_ofFn] at hv
    obtain ⟨i, rfl⟩ := hv
    have he : e.get ⟨i.1, hlen ▸ i.2⟩ ≠ 0 := hz _ (e.get_mem _ _)
    simp only [fdiv, if_neg he, oneSub, fabs]
    exact ⟨_, rfl, abs_nonneg _⟩

/-- Witness for C2 on computed [1, 1] against reference [1, 2]. -/
theorem error_evaluator_elementwise_witness :
    ∃ r, perr [1, 1] [1, 2] = .ok r ∧ r.length = ([1, 1] : List ℚ).length ∧
      (∀ j : Nat, j < ([1, 1] : List ℚ).length →
        r.getD j .nan
          = .fin |1 - ([1, 1] : List ℚ).getD j 0 / ([1, 2] : List ℚ).getD j 0|) ∧
      (∀ v ∈ r, ∃ q, v = .fin q ∧ 0 ≤ q) :=
  error_evaluator_elementwise [1, 1] [1, 2] (by norm_num) (by norm_num)

/-- C3 counterexample: at n = -1 the recurrence functions fail with an
IndexError (raised by the write p[0] = 1 after np.zeros(0) has already run),
not with the InvalidArgument error the claim requires. -/
theorem negative_input_not_invalid_argument :
    prec (-1) = .error PyErr.indexError ∧
    prec (-1) ≠ .error PyErr.invalidArgument ∧
    qrec (-1) ≠ .error PyErr.invalidArgument := by
  refine ⟨rfl, fun h => ?_, fun h => ?_⟩
  · have h2 : (Except.error PyErr.indexError : Except PyErr (List ℚ))
        = .error PyErr.invalidArgument := h
    exact PyErr.noConfusion (Except.error.inj h2)
  · have h2 : (Except.error PyErr.indexError : Except PyErr (List ℚ))
        = .error PyErr.invalidArgument := h
    exact PyErr.noConfusion (Except.error.inj h2)

/-- C3 amended: for every n < 0 both recurrence functions fail and return no
partial result, but with the Python exceptions the code actually raises, not
with a pre-validation InvalidArgument: n = -1 raises IndexError after the
empty array is allocated; n <= -2 raises ValueError inside np.zeros. -/
theorem negative_input_failure_modes (n : Int) (hn : n < 0) :
    prec n = .error (if n = -1 then PyErr.indexError else PyErr.valueError) ∧
    qrec n = .error (if n = -1 then PyErr.indexError else PyErr.valueError) := by
  rcases eq_or_ne n (-1) with rfl | h
  · rw [if_pos rfl]
    exact ⟨rfl, rfl⟩
  · rw [if_neg h]
    unfold prec qrec
    rw [if_pos (by omega), if_pos (by omega)]
    exact ⟨rfl, rfl⟩

/-- Witness for the amended C3 at n = -1 and n = -2. -/
theorem negative_input_failure_modes_witness :
    (prec (-1) = .error (if (-1 : Int) = -1 then PyErr.indexError else PyErr.valueError) ∧
     qrec (-1) = .error (if (-1 : Int) = -1 then PyErr.indexError else PyErr.valueError)) ∧
    (prec (-2) = .error (if (-2 : Int) = -1 then PyErr.indexError else PyErr.valueError) ∧
     qrec (-2) = .error (if (-2 : Int) = -1 then PyErr.indexError else PyErr.valueError)) :=
  ⟨negative_input_failure_modes (-1) (by norm_num),
   negative_input_failure_modes (-2) (by norm_num)⟩

/-- C4: at n = 0 the recurrence functions do not return the length-1
sequence [1.0] their docstring and the spec promise: the unconditional
assignment p[1] = 1./3 raises IndexError on the length-1 array.  Only the
reference sequence yields [1.0]. -/
theorem zero_input_index_error :
    prec 0 = .error PyErr.indexError ∧ qrec 0 = .error PyErr.indexError ∧
    referenceSequence 0 = [1] :=
  ⟨rfl, rfl, by simp [referenceSequence, List.ofFn_succ]⟩

/-- C5 counterexample: with computed [1] and reference [2, 0] the lengths
differ and the reference contains a zero, yet perr raises nothing: numpy
broadcasts the length-1 array and maps the zero divisor to inf, returning a
result. -/
theorem error_evaluator_silent_on_mismatch_and_zero :
    perr [1] [2, 0] = .ok [FVal.fin (1/2), FVal.inf] ∧
    ([1] : List ℚ).length ≠ ([2, 0] : List ℚ).length ∧
    (0 : ℚ) ∈ ([2, 0] : List ℚ) :=
  ⟨by norm_num [perr, fdiv, oneSub, fabs], by norm_num, by norm_num⟩

/-- C5 amended: perr rejects a length mismatch (with numpy's broadcasting
ValueError, before any elementwise work) only when neither length is 1; a
length-1 operand is silently broadcast.  A zero reference element never
raises: with equal lengths the call still succeeds, and a positive value
divided by zero becomes an inf error entry. -/
theorem error_evaluator_failure_modes :
    (∀ p e : List ℚ, p.length ≠ e.length → p.length ≠ 1 → e.length ≠ 1 →
      perr p e = .error PyErr.valueError) ∧
    (∀ p e : List ℚ, p.length = e.length →
      ∃ r, perr p e = .ok r ∧ r.length = p.length) ∧
    (∀ c : ℚ, 0 < c → perr [c] [0] = .ok [FVal.inf]) := by
  refine ⟨?_, ?_, ?_⟩
  · intro p e h1 h2 h3
    rw [perr, dif_neg h1, if_neg h2, if_neg h3]
  · intro p e h
    refine ⟨List.ofFn fun i : Fin p.length =>
      fabs (oneSub (fdiv (p.get i) (e.get ⟨i.1, h ▸ i.2⟩))), ?_, by simp⟩
    rw [perr, dif_pos h]
  · intro c hc
    norm_num [perr, fdiv, oneSub, fabs, hc, hc.ne.symm]

/-- Witness for the amended C5: length mismatch [1, 2] against [1, 2, 3]
raises ValueError; equal lengths always succeed, even against the all-zero
reference [0, 0]; a positive value against the zero reference gives inf. -/
theorem error_evaluator_failure_modes_witness :
    perr [1, 2] [1, 2, 3] = .error PyErr.valueError ∧
    (∃ r, perr [1, 2] [0, 0] = .ok r ∧ r.length = ([1, 2] : List ℚ).length) ∧
    perr [2] [0] = .ok [FVal.inf] :=
  ⟨error_evaluator_failure_modes.1 [1, 2] [1, 2, 3] (by norm_num) (by norm_num) (by norm_num),
   error_evaluator_failure_modes.2.1 [1, 2] [0, 0] (by norm_num),
   error_evaluator_failure_modes.2.2 2 (by norm_num)⟩

/-- C6: the reference sequence for n = 40 has 41 entries and its last entry
is exactly 1/3^40 computed by non-integer arithmetic: a small positive value
strictly between 8.2e-20 and 8.3e-20, not a large integer and not
negative. -/
theorem reference_sequence_value_at_forty :
    (referenceSequence 40).length = 41 ∧
    (referenceSequence 40).getD 40 0 = 1 / (3:ℚ) ^ (40:Nat) ∧
    0 < (referenceSequence 40).getD 40 0 ∧
    (82:ℚ) / 10 ^ 21 < (referenceSequence 40).getD 40 0 ∧
    (referenceSequence 40).getD 40 0 < (83:ℚ) / 10 ^ 21 ∧
    (referenceSequence 40).getD 40 0 < 1 := by
  have hl : (referenceSequence 40).getD 40 0 = 1 / (3:ℚ) ^ (40:Nat) := by
    unfold referenceSequence
    rw [ofFn_getD _ 40 (by norm_num)]
  refine ⟨by simp [referenceSequence], hl, ?_, ?_, ?_, ?_⟩ <;> rw [hl] <;> norm_num

/-- C8 counterexample: the claimed range "every n >= 0" fails at n = 0,
where the recurrence functions raise IndexError rather than producing the
reference sequence [1.0]. -/
theorem exact_equivalence_fails_at_zero :
    prec 0 ≠ .ok (referenceSequence 0) ∧ qrec 0 ≠ .ok (referenceSequence 0) := by
  refine ⟨fun h => ?_, fun h => ?_⟩
  · have h2 : (Except.error PyErr.indexError : Except PyErr (List ℚ))
        = .ok (referenceSequence 0) := h
    exact Except.noConfusion h2
  · have h2 : (Except.error PyErr.indexError : Except PyErr (List ℚ))
        = .ok (referenceSequence 0) := h
    exact Except.noConfusion h2

/-- C8 amended: under exact rational arithmetic the two recurrence formulas
both produce exactly (1/3)^j at every index j >= 0; the embedded functions
prec and qrec are equal on every integer input (errors included), and for
every n >= 1 both return exactly the closed-form reference sequence. -/
theorem exact_arithmetic_equivalence :
    (∀ j : Nat, recSeq (5/6) (1/6) j = (1/3) ^ j ∧ recSeq (5/3) (4/9) j = (1/3) ^ j) ∧
    (∀ n : Int, prec n = qrec n) ∧
    (∀ n : Int, 1 ≤ n →
      prec n = .ok (referenceSequence n) ∧ qrec n = .ok (referenceSequence n)) :=
  ⟨fun j => ⟨recSeq_eq_pow _ _ (by norm_num) j, recSeq_eq_pow _ _ (by norm_num) j⟩,
   prec_eq_qrec,
   fun n hn => ⟨prec_eq_ref n hn, qrec_eq_ref n hn⟩⟩

/-- Witness for the amended C8 at j = 3 and n = 5. -/
theorem exact_arithmetic_equivalence_witness :
    (recSeq (5/6) (1/6) 3 = (1/3) ^ 3 ∧ recSeq (5/3) (4/9) 3 = (1/3) ^ 3) ∧
    prec 5 = qrec 5 ∧
    (prec 5 = .ok (referenceSequence 5) ∧ qrec 5 = .ok (referenceSequence 5)) :=
  ⟨exact_arithmetic_equivalence.1 3,
   exact_arithmetic_equivalence.2.1 5,
   exact_arithmetic_equivalence.2.2 5 (by norm_num)⟩

/-- C9: each of the four embedded operations is a pure function of its
input: two invocations on the same input give identical outputs, and the
embedding gives them no state to read or write. -/
theorem operations_deterministic :
    (∀ n : Int, prec n = prec n) ∧ (∀ n : Int, qrec n = qrec n) ∧
    (∀ n : Int, referenceSequence n = referenceSequence n) ∧
    (∀ p e : List ℚ, perr p e = perr p e) :=
  ⟨fun _ => rfl, fun _ => rfl, fun _ => rfl, fun _ _ => rfl⟩

/-- C10: for every n >= 1 the error series of either recurrence against the
reference starts with two exact zeros: index 0 compares 1 with 1 and index 1
compares the identical value 1/3 with itself, so the quotient is exactly 1
and the error exactly 0. -/
theorem first_two_errors_zero (n : Int) (hn : 1 ≤ n) :
    ∃ s t r u, prec n = .ok s ∧ qrec n = .ok t ∧
      perr s (referenceSequence n) = .ok r ∧
      perr t (referenceSequence n) = .ok u ∧
      s.getD 0 0 = 1 ∧ (referenceSequence n).getD 0 0 = 1 ∧
      s.getD 1 0 = (referenceSequence n).getD 1 0 ∧
      r.getD 0 .nan = .fin 0 ∧ r.getD 1 .nan = .fin 0 ∧
      u.getD 0 .nan = .fin 0 ∧ u.getD 1 .nan = .fin 0 := by
  have hz := referenceSequence_ne_zero n
  have h0 : (referenceSequence n).getD 0 0 = 1 := by
    unfold referenceSequence
    rw [ofFn_getD _ 0 (by omega)]
    norm_num
  have hzero : ∀ j : Nat, j < (referenceSequence n).length →
      (List.ofFn fun _ : Fin (referenceSequence n).length => FVal.fin 0).getD j .nan
        = .fin 0 := by
    intro j hj
    rw [ofFn_getD _ j hj]
  have hlen : 1 < (referenceSequence n).length := by
    unfold referenceSequence
    simp only [List.length_ofFn]
    omega
  refine ⟨referenceSequence n, referenceSequence n, _, _,
    prec_eq_ref n hn, qrec_eq_ref n hn, perr_self _ hz, perr_self _ hz,
    h0, h0, rfl, hzero 0 (by omega), hzero 1 hlen, hzero 0 (by omega), hzero 1 hlen⟩

/-- Witness for C10 at n = 1. -/
theorem first_two_errors_zero_witness :
    ∃ s t r u, prec 1 = .ok s ∧ qrec 1 = .ok t ∧
      perr s (referenceSequence 1) = .ok r ∧
      perr t (referenceSequence 1) = .ok u ∧
      s.getD 0 0 = 1 ∧ (referenceSequence 1).getD 0 0 = 1 ∧
      s.getD 1 0 = (referenceSequence 1).getD 1 0 ∧
      r.getD 0 .nan = .fin 0 ∧ r.getD 1 .nan = .fin 0 ∧
      u.getD 0 .nan = .fin 0 ∧ u.getD 1 .nan = .fin 0 :=
  first_two_errors_zero 1 (by norm_num)

end AlgorithmChoice
